import Mathlib

/-!
Shallow embedding of the `web-service` repository (Go) for checking its
natural-language specification.

Embedded source files:
  * `internal/storage/comments.go` — the in-memory comment store
    (`map[string]Comment` guarded by a `sync.RWMutex`).  The Go map is
    modelled as an association list with Go-map insert/replace semantics;
    the mutex is not modelled: each operation is atomic here, which is
    exactly the linearization the exclusive lock provides.
    `context.Context` cancellation is modelled by a boolean `cancelled`
    flag checked at the head of every operation, mirroring the
    `select { case <-ctx.Done(): ... default: }` guard in the source.
    `time.Time` is modelled as `Int` (a timestamp).
  * `internal/auth/jwt.go` — the JWT manager.  Signing is modelled
    symbolically: an HMAC signature is the triple (key, algorithm, claims),
    so two signatures agree exactly when key, algorithm and signed payload
    agree (the standard symbolic model of a MAC, ignoring collisions).
  * `internal/api/middleware.go` — the auth and CORS middleware.
  * `internal/api/handlers.go` and `internal/api/encode.go` — the comment
    handlers and the `decodeValid` helper, including its error/problems
    return convention.
-/

/-! ## Association-list model of a Go `map[string]V` -/

/-- Lookup in a Go map modelled as an association list (`m[k]`). -/
def mapLookup {α : Type} : List (String × α) → String → Option α
  | [], _ => none
  | (k', v) :: rest, k => if k' = k then some v else mapLookup rest k

/-- Insert/replace in a Go map (`m[k] = v`): replaces the binding of `k`
if present, otherwise appends a new binding. -/
def mapInsert {α : Type} : List (String × α) → String → α → List (String × α)
  | [], k, v => [(k, v)]
  | (k', v') :: rest, k, v =>
    if k' = k then (k, v) :: rest else (k', v') :: mapInsert rest k v

/-- Removal from a Go map (`delete(m, k)`). -/
def mapErase {α : Type} : List (String × α) → String → List (String × α)
  | [], _ => []
  | (k', v') :: rest, k =>
    if k' = k then mapErase rest k else (k', v') :: mapErase rest k

/-! ## `internal/storage/comments.go` -/

/-- The `Comment` record of `internal/storage/comments.go`. -/
structure Comment where
  ID : String
  Content : String
  Author : String
  CreatedAt : Int
  UserID : String
  deriving DecidableEq, Repr

/-- Errors a store operation can surface: `storage.ErrNotFound`, or the
context error returned when the caller's context is already cancelled. -/
inductive StoreErr where
  | notFound
  | cancelled
  deriving DecidableEq, Repr

/-- The state of a `CommentStore`: its `comments map[string]Comment`. -/
abbrev CommentStore := List (String × Comment)

/-- A slice of comments (`[]Comment`).  Named so that signatures inside the
`CommentStore` namespace do not capture the name `List`. -/
abbrev CommentList := List Comment

/-- `NewCommentStore`: an empty map. -/
def NewCommentStore : CommentStore := []

/-- `CommentStore.Create`: on a live context, stamps a fresh identifier
(`util.GenerateID()`, supplied here as `freshID`) and the current time
(`now`) onto the draft and inserts it.  Returns the stored comment and the
new store state; a cancelled context aborts with no mutation. -/
def CommentStore.Create (cancelled : Bool) (s : CommentStore) (c : Comment)
    (freshID : String) (now : Int) : Except StoreErr Comment × CommentStore :=
  if cancelled then (.error .cancelled, s)
  else
    let stored : Comment := { c with ID := freshID, CreatedAt := now }
    (.ok stored, mapInsert s freshID stored)

/-- `CommentStore.List`: snapshot of all stored comments. -/
def CommentStore.List (cancelled : Bool) (s : CommentStore) :
    Except StoreErr CommentList :=
  if cancelled then .error .cancelled
  else .ok (s.map (·.2))

/-- `CommentStore.Get`: lookup by identifier. -/
def CommentStore.Get (cancelled : Bool) (s : CommentStore) (id : String) :
    Except StoreErr Comment :=
  if cancelled then .error .cancelled
  else
    match mapLookup s id with
    | none => .error .notFound
    | some c => .ok c

/-- `CommentStore.Delete`: removes the comment with the given identifier,
`ErrNotFound` when absent. -/
def CommentStore.Delete (cancelled : Bool) (s : CommentStore) (id : String) :
    Except StoreErr Unit × CommentStore :=
  if cancelled then (.error .cancelled, s)
  else
    match mapLookup s id with
    | none => (.error .notFound, s)
    | some _ => (.ok (), mapErase s id)

/-- `CommentStore.Update`: replaces the stored comment with the draft, but
first pins `ID`, `CreatedAt` and `UserID` to the existing record's values
(the "Preserve creation metadata" block of the source). -/
def CommentStore.Update (cancelled : Bool) (s : CommentStore) (id : String)
    (c : Comment) : Except StoreErr Comment × CommentStore :=
  if cancelled then (.error .cancelled, s)
  else
    match mapLookup s id with
    | none => (.error .notFound, s)
    | some existing =>
      let updated : Comment :=
        { c with ID := existing.ID, CreatedAt := existing.CreatedAt,
                 UserID := existing.UserID }
      (.ok updated, mapInsert s id updated)

/-- `CommentStore.ListByUser`: comments whose `UserID` matches. -/
def CommentStore.ListByUser (cancelled : Bool) (s : CommentStore)
    (userID : String) : Except StoreErr CommentList :=
  if cancelled then .error .cancelled
  else .ok ((s.map (·.2)).filter (fun c => c.UserID = userID))

/-- `CommentStore.DeleteByUser`: removes every comment whose `UserID`
matches. -/
def CommentStore.DeleteByUser (cancelled : Bool) (s : CommentStore)
    (userID : String) : Except StoreErr Unit × CommentStore :=
  if cancelled then (.error .cancelled, s)
  else (.ok (), s.filter (fun kv => ¬ kv.2.UserID = userID))

/-- `CommentStore.DeleteOlderThan`: removes every comment created strictly
before `now - age` (`c.CreatedAt.Before(cutoff)`). -/
def CommentStore.DeleteOlderThan (cancelled : Bool) (s : CommentStore)
    (now age : Int) : Except StoreErr Unit × CommentStore :=
  if cancelled then (.error .cancelled, s)
  else (.ok (), s.filter (fun kv => ¬ kv.2.CreatedAt < now - age))

/-- `CommentStore.Count`: `len(s.comments)`. -/
def CommentStore.Count (cancelled : Bool) (s : CommentStore) :
    Except StoreErr Nat :=
  if cancelled then .error .cancelled
  else .ok s.length

/-! ## `internal/auth/jwt.go` -/

/-- Signing algorithms a token header can claim.  `HS256/384/512` are the
HMAC family (`*jwt.SigningMethodHMAC`); the others are non-HMAC methods a
hostile token could claim. -/
inductive Alg where
  | HS256
  | HS384
  | HS512
  | RS256
  | ES256
  deriving DecidableEq, Repr

/-- Membership in the HMAC family, the check performed by the key
function of `ValidateToken`. -/
def Alg.isHMAC : Alg → Bool
  | .HS256 => true
  | .HS384 => true
  | .HS512 => true
  | _ => false

/-- The `Claims` payload of `internal/auth/jwt.go`: custom `user_id` and
`role` plus the registered `exp`/`iat`/`nbf` claims (times as `Int`). -/
structure Claims where
  UserID : String
  Role : String
  ExpiresAt : Int
  IssuedAt : Int
  NotBefore : Int
  deriving DecidableEq, Repr

/-- A symbolic MAC signature: it records the key, algorithm and payload it
was computed over, so two signatures are equal exactly when all three
agree (collisions are ignored, as usual in a symbolic model). -/
structure Sig where
  key : String
  alg : Alg
  claims : Claims
  deriving DecidableEq, Repr

/-- Computing the signature over a token's header algorithm and claims
with a given key. -/
def mac (key : String) (alg : Alg) (claims : Claims) : Sig :=
  ⟨key, alg, claims⟩

/-- A structurally well-formed JWT: header algorithm, claims, signature. -/
structure Token where
  alg : Alg
  claims : Claims
  sig : Sig
  deriving DecidableEq, Repr

/-- The wire form of a token string: either not parseable as a JWT at all,
or the serialization of a structurally well-formed token. -/
inductive TokenStr where
  | malformed (s : String)
  | wellFormed (t : Token)
  deriving DecidableEq, Repr

/-- Errors of `ValidateToken`, following the error classes of
`jwt.ParseWithClaims`: parse failure, the key function's rejection of a
non-HMAC algorithm, signature mismatch, and the registered-claims time
checks. -/
inductive AuthErr where
  | malformedToken
  | unexpectedAlg
  | invalidSignature
  | expired
  | notYetValid
  deriving DecidableEq, Repr

/-- `JWTManager`: the signing secret and the validity window. -/
structure JWTManager where
  secretKey : String
  expiry : Int
  deriving DecidableEq, Repr

/-- `NewJWTManager`. -/
def NewJWTManager (secretKey : String) (expiry : Int) : JWTManager :=
  ⟨secretKey, expiry⟩

/-- `JWTManager.GenerateToken`: claims with `exp = now + expiry`,
`iat = nbf = now`, signed with `HS256` under the manager's secret.
(`SignedString` cannot fail for an HMAC key, so the Go error return is
dropped.) -/
def JWTManager.GenerateToken (m : JWTManager) (now : Int)
    (userID role : String) : TokenStr :=
  let claims : Claims :=
    { UserID := userID, Role := role, ExpiresAt := now + m.expiry,
      IssuedAt := now, NotBefore := now }
  .wellFormed { alg := .HS256, claims := claims,
                sig := mac m.secretKey .HS256 claims }

/-- `JWTManager.ValidateToken`, with the checks in the order
`jwt.ParseWithClaims` performs them: parse, key function (HMAC-family
check), signature verification against the manager's secret, then the
registered time claims — `exp` requires `now < exp`, `nbf` requires
`nbf ≤ now` (the window `[nbf, exp)`). -/
def JWTManager.ValidateToken (m : JWTManager) (now : Int) (ts : TokenStr) :
    Except AuthErr Claims :=
  match ts with
  | .malformed _ => .error .malformedToken
  | .wellFormed t =>
    if ¬ t.alg.isHMAC then .error .unexpectedAlg
    else if ¬ t.sig = mac m.secretKey t.alg t.claims then
      .error .invalidSignature
    else if ¬ now < t.claims.ExpiresAt then .error .expired
    else if now < t.claims.NotBefore then .error .notYetValid
    else .ok t.claims

/-! ## `internal/api/middleware.go` -/

/-- The authenticated identity the middleware injects into the request
context (`UserIDKey`, `UserRoleKey`). -/
structure Identity where
  userID : String
  role : String
  deriving DecidableEq, Repr

/-- The `Authorization` header of a request: absent (`Header.Get` returns
the empty string), present without the `"Bearer "` prefix, or a bearer
value whose remainder is a token string. -/
inductive AuthHeader where
  | missing
  | plain (s : String)
  | bearer (ts : TokenStr)
  deriving DecidableEq, Repr

/-- The body of a request, as the JSON decoder sees it: undecodable JSON,
or a decoded `{content, author}` object (`createCommentRequest`). -/
inductive Body where
  | invalidJSON
  | comment (content author : String)
  deriving DecidableEq, Repr

/-- An inbound HTTP request, reduced to the parts the embedded code
inspects. -/
structure Request where
  method : String
  path : String
  header : AuthHeader
  body : Body
  deriving DecidableEq, Repr

/-- A response body: `http.Error` plain text, an encoded field→message
problems map, an encoded comment, an encoded comment slice, or empty. -/
inductive RespBody where
  | text (s : String)
  | fieldMap (m : List (String × String))
  | commentJSON (c : Comment)
  | commentSlice (cs : List Comment)
  | empty
  deriving DecidableEq, Repr

/-- An HTTP response: status code and body. -/
structure Response where
  status : Nat
  body : RespBody
  deriving DecidableEq, Repr

/-- A handler: consumes the request, the identity in the request context
(if any) and the store state; produces a response and the new store
state.  The store is the only shared state the handlers touch. -/
abbrev Handler := Request → Option Identity → CommentStore → Response × CommentStore

/-- `newAuthMiddleware`: skips authentication exactly when the path is
`"/healthz"` or `"/api/v1/login"` (string equality); otherwise requires a
`Bearer` header whose token validates, answering 401 without invoking
`next` when it does not, and injecting the claims' identity into the
context when it does.  `now` stands for the clock read during
validation; 86400 seconds is the `24*time.Hour` expiry of the source. -/
def newAuthMiddleware (jwtSecret : String) (now : Int) (next : Handler) :
    Handler :=
  let jwtManager := NewJWTManager jwtSecret (86400)
  fun r ident s =>
    if r.path = "/healthz" ∨ r.path = "/api/v1/login" then next r ident s
    else
      match r.header with
      | .bearer ts =>
        match jwtManager.ValidateToken now ts with
        | .error _ => ({ status := 401, body := .text "Invalid token" }, s)
        | .ok claims => next r (some ⟨claims.UserID, claims.Role⟩) s
      | _ => ({ status := 401, body := .text "Unauthorized" }, s)

/-- `newCORSMiddleware`: answers any `OPTIONS` request with 200 and an
empty body without invoking `next`; all other requests pass through (the
response headers it sets are not modelled). -/
def newCORSMiddleware (next : Handler) : Handler :=
  fun r ident s =>
    if r.method = "OPTIONS" then ({ status := 200, body := .empty }, s)
    else next r ident s

/-- `api.NewServer`'s middleware stack applied to a downstream handler:
CORS outermost, then authentication (the logging middleware between the
auth middleware and the mux is transparent to status, body and store). -/
def NewServer (jwtSecret : String) (now : Int) (app : Handler) : Handler :=
  newCORSMiddleware (newAuthMiddleware jwtSecret now app)

/-! ## `internal/api/handlers.go` and `internal/api/encode.go` -/

/-- Whitespace test for `strings.TrimSpace` (the ASCII whitespace class;
Go's `unicode.IsSpace` additionally covers rare Unicode space characters,
which no claim depends on). -/
def isSpaceChar (c : Char) : Bool := c.isWhitespace

/-- `strings.TrimSpace`, computed structurally over the character list so
that it reduces inside the kernel. -/
def trimSpace (s : String) : String :=
  ⟨((s.data.dropWhile isSpaceChar).reverse.dropWhile isSpaceChar).reverse⟩

/-- Structural list prefix test (for `strings.TrimPrefix`/`HasPrefix`). -/
def listIsPrefixOf : List Char → List Char → Bool
  | [], _ => true
  | _ :: _, [] => false
  | c :: cs, d :: ds => c = d && listIsPrefixOf cs ds

/-- `UserIDFromContext`: the `user_id` context value, or `""` when the
extraction fails or no identity was injected. -/
def UserIDFromContext : Option Identity → String
  | some i => i.userID
  | none => ""

/-- `createCommentRequest.Valid`: the problems map, built exactly as in
the source — the required-content entry, overwritten by the length entry
when the content exceeds 1000 bytes, then the required-author entry.
Go `len` on a string counts bytes, hence `utf8ByteSize`. -/
def createCommentRequest.Valid (content author : String) :
    List (String × String) :=
  let problems : List (String × String) := []
  let problems :=
    if trimSpace content = "" then
      mapInsert problems "content" "content is required"
    else problems
  let problems :=
    if content.utf8ByteSize > 1000 then
      mapInsert problems "content" "content must be less than 1000 characters"
    else problems
  let problems :=
    if trimSpace author = "" then
      mapInsert problems "author" "author is required"
    else problems
  problems

/-- `decodeValid[createCommentRequest]`: returns the decoded value, the
problems map and the error.  Note the source returns a non-nil error both
on a JSON decode failure and whenever the problems map is non-empty
(`fmt.Errorf("invalid %T: %d problems", ...)`). -/
def decodeValid (b : Body) :
    (String × String) × List (String × String) × Option String :=
  match b with
  | .invalidJSON => (("", ""), [], some "decode json")
  | .comment content author =>
    let problems := createCommentRequest.Valid content author
    if problems.length > 0 then
      ((content, author), problems,
       some ("invalid api.createCommentRequest: "
             ++ toString problems.length ++ " problems"))
    else ((content, author), [], none)

/-- `handleComments` (the `/api/v1/comments` collection handler): GET
lists, POST decodes/validates then creates; `freshID` and `now` stand for
the identifier generator and clock reads inside `store.Create`. -/
def handleComments (cancelled : Bool) (r : Request) (ident : Option Identity)
    (s : CommentStore) (freshID : String) (now : Int) :
    Response × CommentStore :=
  let userID := UserIDFromContext ident
  if r.method = "GET" then
    match CommentStore.List cancelled s with
    | .error _ => ({ status := 500, body := .text "Internal Server Error" }, s)
    | .ok comments => ({ status := 200, body := .commentSlice comments }, s)
  else if r.method = "POST" then
    let dv := decodeValid r.body
    match dv.2.2 with
    | some msg => ({ status := 400, body := .text msg }, s)
    | none =>
      if dv.2.1.length > 0 then
        ({ status := 400, body := .fieldMap dv.2.1 }, s)
      else
        match CommentStore.Create cancelled s
            { ID := "", Content := dv.1.1, Author := dv.1.2,
              CreatedAt := 0, UserID := userID } freshID now with
        | (.ok c, s') => ({ status := 201, body := .commentJSON c }, s')
        | (.error _, s') =>
          ({ status := 500, body := .text "Internal Server Error" }, s')
  else ({ status := 405, body := .text "Method Not Allowed" }, s)

/-- `strings.TrimPrefix`, computed structurally over the character lists
so that it reduces inside the kernel. -/
def trimPrefixStr (s pre : String) : String :=
  if listIsPrefixOf pre.data s.data then ⟨s.data.drop pre.data.length⟩
  else s

/-- `handleComment` (the `/api/v1/comments/{id}` single-record handler):
extracts the identifier from the path, then GET fetches, PUT
decodes/validates, checks ownership against the context identity and
updates, DELETE checks ownership and deletes. -/
def handleComment (cancelled : Bool) (r : Request) (ident : Option Identity)
    (s : CommentStore) : Response × CommentStore :=
  let userID := UserIDFromContext ident
  let commentID := trimPrefixStr r.path "/api/v1/comments/"
  if commentID = "" then
    ({ status := 400, body := .text "Comment ID required" }, s)
  else if r.method = "GET" then
    match CommentStore.Get cancelled s commentID with
    | .error .notFound =>
      ({ status := 404, body := .text "Comment not found" }, s)
    | .error _ =>
      ({ status := 500, body := .text "Internal Server Error" }, s)
    | .ok c => ({ status := 200, body := .commentJSON c }, s)
  else if r.method = "PUT" then
    let dv := decodeValid r.body
    match dv.2.2 with
    | some msg => ({ status := 400, body := .text msg }, s)
    | none =>
      if dv.2.1.length > 0 then
        ({ status := 400, body := .fieldMap dv.2.1 }, s)
      else
        match CommentStore.Get cancelled s commentID with
        | .error .notFound =>
          ({ status := 404, body := .text "Comment not found" }, s)
        | .error _ =>
          ({ status := 500, body := .text "Internal Server Error" }, s)
        | .ok existing =>
          if ¬ existing.UserID = userID then
            ({ status := 403, body := .text "Forbidden" }, s)
          else
            match CommentStore.Update cancelled s commentID
                { ID := "", Content := dv.1.1, Author := dv.1.2,
                  CreatedAt := 0, UserID := userID } with
            | (.ok c, s') => ({ status := 200, body := .commentJSON c }, s')
            | (.error _, s') =>
              ({ status := 500, body := .text "Internal Server Error" }, s')
  else if r.method = "DELETE" then
    match CommentStore.Get cancelled s commentID with
    | .error .notFound =>
      ({ status := 404, body := .text "Comment not found" }, s)
    | .error _ =>
      ({ status := 500, body := .text "Internal Server Error" }, s)
    | .ok existing =>
      if ¬ existing.UserID = userID then
        ({ status := 403, body := .text "Forbidden" }, s)
      else
        match CommentStore.Delete cancelled s commentID with
        | (.ok _, s') => ({ status := 204, body := .empty }, s')
        | (.error _, s') =>
          ({ status := 500, body := .text "Internal Server Error" }, s')
  else ({ status := 405, body := .text "Method Not Allowed" }, s)

/-! ## Linearized concurrent creates

The store's `sync.RWMutex` makes each `Create` body atomic, so any
concurrent execution of N `Create` calls is equivalent to running them in
some sequential order; `createAll` folds one such order.  Each job carries
the `util.GenerateID()` and `time.Now()` values read inside the critical
section of its call. -/

/-- One linearized `Create` call: the draft plus the identifier and
timestamp read inside its critical section. -/
structure CreateJob where
  draft : Comment
  freshID : String
  now : Int
  deriving DecidableEq, Repr

/-- Folding a sequence of `Create` calls over the store, collecting the
returned records and the final state. -/
def createAll (s : CommentStore) : List CreateJob → List Comment × CommentStore
  | [] => ([], s)
  | j :: rest =>
    match CommentStore.Create false s j.draft j.freshID j.now with
    | (.ok c, s') =>
      let out := createAll s' rest
      (c :: out.1, out.2)
    | (.error _, s') =>
      let out := createAll s' rest
      (out.1, out.2)

/-! ## Auxiliary definitions for claim statements and witnesses -/

/-- A request header that does not carry a valid bearer token for the
given secret at the given time: the header is absent, lacks the
`"Bearer "` prefix, or carries a token the middleware's `JWTManager`
(secret, 24-hour expiry) rejects. -/
def lacksValidBearer (jwtSecret : String) (now : Int) (h : AuthHeader) :
    Bool :=
  match h with
  | .bearer ts =>
    match (NewJWTManager jwtSecret (86400)).ValidateToken now ts with
    | .ok _ => false
    | .error _ => true
  | _ => true

/-- A downstream handler that visibly runs: it answers 201 and inserts a
probe record.  Used to exhibit that the middleware does or does not invoke
the handler behind it. -/
def probeApp : Handler :=
  fun _ _ s =>
    ({ status := 201, body := .empty },
     mapInsert s "probe" ⟨"probe", "p", "p", 0, "p"⟩)

/-- A CORS preflight request to a protected path, with no Authorization
header. -/
def reqOptionsW : Request :=
  { method := "OPTIONS", path := "/api/v1/comments", header := .missing,
    body := .invalidJSON }

/-- A POST to the protected collection path with no Authorization
header. -/
def reqPostNoAuthW : Request :=
  { method := "POST", path := "/api/v1/comments", header := .missing,
    body := .comment "hi" "bob" }

/-- A GET for a trailing-slash variant of the health-check path, with no
Authorization header. -/
def reqhealthSlashW : Request :=
  { method := "GET", path := "/healthz/", header := .missing,
    body := .invalidJSON }

/-- A GET for the exact health-check path. -/
def reqhealthW : Request :=
  { method := "GET", path := "/healthz", header := .missing,
    body := .invalidJSON }

/-- Witness record stored under key `"a"`. -/
def cW1 : Comment := ⟨"a", "old", "alice", 5, "owner1"⟩

/-- Witness draft that attempts to tamper with identifier, timestamp and
owner. -/
def draftW1 : Comment := ⟨"zzz", "new text", "bob", 99, "intruder"⟩

/-- Witness store holding `cW1`. -/
def storeW1 : CommentStore := [("a", cW1)]

/-- The record `Update` produces from `draftW1` over `cW1`. -/
def updatedW1 : Comment := ⟨"a", "new text", "bob", 5, "owner1"⟩

/-- The witness store after the update. -/
def storeW1' : CommentStore := [("a", updatedW1)]

/-- Witness JWT manager. -/
def mgrW : JWTManager := NewJWTManager "server-secret" (86400)

/-- Witness claims issued at time 0. -/
def clW : Claims :=
  { UserID := "alice", Role := "user", ExpiresAt := 86400,
    IssuedAt := 0, NotBefore := 0 }

/-- Witness token correctly signed by `mgrW`. -/
def tokW : Token := ⟨.HS256, clW, mac "server-secret" .HS256 clW⟩

/-- Witness token signed with a different secret. -/
def tokWrongW : Token := ⟨.HS256, clW, mac "other-secret" .HS256 clW⟩

/-- Witness jobs for three linearized creates with distinct fresh
identifiers. -/
def jobsW : List CreateJob :=
  [⟨⟨"", "one", "a", 0, "u1"⟩, "id1", 1⟩,
   ⟨⟨"", "two", "b", 0, "u2"⟩, "id2", 2⟩,
   ⟨⟨"", "three", "c", 0, "u3"⟩, "id3", 3⟩]

/-! ## Lemmas about the map model -/

/-- Looking up the key just inserted yields the inserted value. -/
theorem mapLookup_mapInsert_self {α : Type} (m : List (String × α))
    (k : String) (v : α) : mapLookup (mapInsert m k v) k = some v := by
  induction m with
  | nil => simp [mapInsert, mapLookup]
  | cons kv rest ih =>
    obtain ⟨k', v'⟩ := kv
    by_cases h : k' = k
    · simp [mapInsert, mapLookup, h]
    · simp [mapInsert, mapLookup, h, ih]

/-- Insertion does not disturb the bindings of other keys. -/
theorem mapLookup_mapInsert_ne {α : Type} (m : List (String × α))
    (k k' : String) (v : α) (h : k ≠ k') :
    mapLookup (mapInsert m k v) k' = mapLookup m k' := by
  induction m with
  | nil => simp [mapInsert, mapLookup, h]
  | cons kv rest ih =>
    obtain ⟨k₀, v₀⟩ := kv
    by_cases h0 : k₀ = k
    · subst h0
      simp [mapInsert, mapLookup, h]
    · simp [mapInsert, mapLookup, h0, ih]

/-- Inserting a key that is not yet bound grows the map by one entry. -/
theorem length_mapInsert_fresh {α : Type} (m : List (String × α))
    (k : String) (v : α) (h : mapLookup m k = none) :
    (mapInsert m k v).length = m.length + 1 := by
  induction m with
  | nil => rfl
  | cons kv rest ih =>
    obtain ⟨k₀, v₀⟩ := kv
    by_cases h0 : k₀ = k
    · simp [mapLookup, h0] at h
    · simp only [mapLookup, if_neg h0] at h
      simp [mapInsert, h0, ih h]

/-! ## Claim theorems -/

/-- C1: for every stored record and every draft, `CommentStore.Update`
replaces only the content and author fields; the identifier, creation
timestamp and owner identity of the returned record and of the record in
the store after the update equal those of the previously stored record,
regardless of what the draft supplies, and no other key's binding
changes. -/
theorem c1_update_preserves_identity (s s' : CommentStore) (id : String)
    (draft existing r : Comment)
    (hex : mapLookup s id = some existing)
    (hup : CommentStore.Update false s id draft = (.ok r, s')) :
    r.ID = existing.ID ∧ r.CreatedAt = existing.CreatedAt ∧
    r.UserID = existing.UserID ∧ r.Content = draft.Content ∧
    r.Author = draft.Author ∧ mapLookup s' id = some r ∧
    ∀ k, k ≠ id → mapLookup s' k = mapLookup s k := by
  simp only [CommentStore.Update, Bool.false_eq_true, if_false, hex,
    Prod.mk.injEq, Except.ok.injEq] at hup
  obtain ⟨hr, hs⟩ := hup
  subst hr
  subst hs
  refine ⟨rfl, rfl, rfl, rfl, rfl, mapLookup_mapInsert_self s id _, ?_⟩
  intro k hk
  exact mapLookup_mapInsert_ne s id k _ (Ne.symm hk)

/-- C1 witness: the general theorem applied to a concrete store, record
and tampering draft. -/
theorem c1_update_preserves_identity_witness :
    updatedW1.ID = cW1.ID ∧ updatedW1.CreatedAt = cW1.CreatedAt ∧
    updatedW1.UserID = cW1.UserID ∧ updatedW1.Content = draftW1.Content ∧
    updatedW1.Author = draftW1.Author ∧
    mapLookup storeW1' "a" = some updatedW1 ∧
    ∀ k, k ≠ "a" → mapLookup storeW1' k = mapLookup storeW1 k :=
  c1_update_preserves_identity storeW1 storeW1' "a" draftW1 cW1 updatedW1
    rfl rfl

/-- C5: every store operation invoked with an already-cancelled context
returns the cancellation error and leaves the store state exactly
unchanged. -/
theorem c5_cancelled_operations_are_noops (s : CommentStore) (c : Comment)
    (id userID freshID : String) (now age : Int) :
    CommentStore.Create true s c freshID now = (.error .cancelled, s) ∧
    CommentStore.List true s = .error .cancelled ∧
    CommentStore.Get true s id = .error .cancelled ∧
    CommentStore.Delete true s id = (.error .cancelled, s) ∧
    CommentStore.Update true s id c = (.error .cancelled, s) ∧
    CommentStore.ListByUser true s userID = .error .cancelled ∧
    CommentStore.DeleteByUser true s userID = (.error .cancelled, s) ∧
    CommentStore.DeleteOlderThan true s now age = (.error .cancelled, s) ∧
    CommentStore.Count true s = .error .cancelled :=
  ⟨rfl, rfl, rfl, rfl, rfl, rfl, rfl, rfl, rfl⟩

/-- C8: if `Create` on a live context returns record `r`, then `Get r.ID`
on the resulting store state succeeds and returns a record equal to `r`
in all fields. -/
theorem c8_create_then_get (s s' : CommentStore) (c r : Comment)
    (freshID : String) (now : Int)
    (h : CommentStore.Create false s c freshID now = (.ok r, s')) :
    CommentStore.Get false s' r.ID = .ok r := by
  simp only [CommentStore.Create, Bool.false_eq_true, if_false,
    Prod.mk.injEq, Except.ok.injEq] at h
  obtain ⟨hr, hs⟩ := h
  subst hr
  subst hs
  simp [CommentStore.Get, mapLookup_mapInsert_self]

/-- C8 witness: a concrete create followed by the get of the returned
record's identifier. -/
theorem c8_create_then_get_witness :
    CommentStore.Get false [("a", cW1), ("id9", ⟨"id9", "txt", "al", 7, "u7"⟩)]
      (Comment.mk "id9" "txt" "al" 7 "u7").ID =
      .ok ⟨"id9", "txt", "al", 7, "u7"⟩ :=
  c8_create_then_get [("a", cW1)] _ ⟨"", "txt", "al", 0, "u7"⟩ _ "id9" 7
    rfl

/-- The records returned by a sequence of creates carry exactly the fresh
identifiers handed to the calls, in order. -/
theorem createAll_ids (jobs : List CreateJob) (s : CommentStore) :
    (createAll s jobs).1.map Comment.ID = jobs.map CreateJob.freshID := by
  induction jobs generalizing s with
  | nil => rfl
  | cons j rest ih =>
    simp [createAll, CommentStore.Create, ih]

/-- Folding creates whose fresh identifiers are pairwise distinct and
absent from the store grows the store by one entry per create. -/
theorem createAll_length (jobs : List CreateJob) (s : CommentStore)
    (hnd : (jobs.map CreateJob.freshID).Nodup)
    (hfresh : ∀ j ∈ jobs, mapLookup s j.freshID = none) :
    (createAll s jobs).2.length = s.length + jobs.length := by
  induction jobs generalizing s with
  | nil => simp [createAll]
  | cons j rest ih =>
    simp only [List.map_cons, List.nodup_cons] at hnd
    have hfr : mapLookup s j.freshID = none := hfresh j (by simp)
    simp only [createAll, CommentStore.Create, Bool.false_eq_true, if_false]
    have hrest : ∀ jj ∈ rest,
        mapLookup (mapInsert s j.freshID
          { j.draft with ID := j.freshID, CreatedAt := j.now })
          jj.freshID = none := by
      intro jj hjj
      have hne : j.freshID ≠ jj.freshID := by
        intro he
        exact hnd.1 (he ▸ List.mem_map_of_mem CreateJob.freshID hjj)
      rw [mapLookup_mapInsert_ne s j.freshID jj.freshID _ hne]
      exact hfresh jj (List.mem_cons_of_mem j hjj)
    rw [ih (mapInsert s j.freshID _) hnd.2 hrest,
      length_mapInsert_fresh s j.freshID _ hfr, List.length_cons]
    omega

/-- C9: N creates linearized by the store's exclusive lock, whose fresh
identifiers (from the globally-unique generator) are pairwise distinct and
not already in the store, return N records with pairwise distinct
identifiers and lose no write: `Count` afterwards equals the prior entry
count plus N. -/
theorem c9_concurrent_creates (jobs : List CreateJob) (s : CommentStore)
    (hnd : (jobs.map CreateJob.freshID).Nodup)
    (hfresh : ∀ j ∈ jobs, mapLookup s j.freshID = none) :
    ((createAll s jobs).1.map Comment.ID).Nodup ∧
    (createAll s jobs).1.length = jobs.length ∧
    CommentStore.Count false (createAll s jobs).2 =
      .ok (s.length + jobs.length) := by
  refine ⟨?_, ?_, ?_⟩
  · rw [createAll_ids]
    exact hnd
  · have h := congrArg List.length (createAll_ids jobs s)
    simpa using h
  · simp only [CommentStore.Count, Bool.false_eq_true, if_false]
    rw [createAll_length jobs s hnd hfresh]

/-- C9 witness: three concrete creates on the empty store. -/
theorem c9_concurrent_creates_witness :
    ((createAll NewCommentStore jobsW).1.map Comment.ID).Nodup ∧
    (createAll NewCommentStore jobsW).1.length = jobsW.length ∧
    CommentStore.Count false (createAll NewCommentStore jobsW).2 =
      .ok (NewCommentStore.length + jobsW.length) :=
  c9_concurrent_creates jobsW NewCommentStore (by decide) (by decide)

/-- C3: `ValidateToken` succeeds only when the token's algorithm is in the
HMAC family, its signature verifies against the manager's secret, and the
current time lies in `[NotBefore, ExpiresAt)`; a correctly signed token
whose expiry has passed fails with the expiry error, and a token signed
with a different secret fails with the signature error. -/
theorem c3_validate_checks (m : JWTManager) (now : Int) :
    (∀ t c, m.ValidateToken now (.wellFormed t) = .ok c →
      t.alg.isHMAC = true ∧ t.sig = mac m.secretKey t.alg t.claims ∧
      t.claims.NotBefore ≤ now ∧ now < t.claims.ExpiresAt ∧
      c = t.claims) ∧
    (∀ t, t.alg.isHMAC = true → t.sig = mac m.secretKey t.alg t.claims →
      t.claims.ExpiresAt ≤ now →
      m.ValidateToken now (.wellFormed t) = .error .expired) ∧
    (∀ (a : Alg) (cl : Claims) (key : String), a.isHMAC = true →
      key ≠ m.secretKey →
      m.ValidateToken now (.wellFormed ⟨a, cl, mac key a cl⟩) =
        .error .invalidSignature) := by
  refine ⟨?_, ?_, ?_⟩
  · intro t c h
    simp only [JWTManager.ValidateToken] at h
    split_ifs at h with h1 h2 h3 h4
    simp only [Except.ok.injEq] at h
    refine ⟨by simpa using h1, by simpa using h2, by omega, by omega,
      h.symm⟩
  · intro t h1 h2 h3
    simp [JWTManager.ValidateToken, h1, h2, not_lt.mpr h3]
  · intro a cl key hH hne
    simp [JWTManager.ValidateToken, hH, mac, Sig.mk.injEq, hne]

/-- C3 witness: a correctly signed unexpired token is characterized, the
same token after expiry fails with the expiry error, and a token signed
with a different secret fails with the signature error. -/
theorem c3_validate_checks_witness :
    (Alg.isHMAC tokW.alg = true ∧
     tokW.sig = mac mgrW.secretKey tokW.alg tokW.claims ∧
     tokW.claims.NotBefore ≤ 10 ∧ 10 < tokW.claims.ExpiresAt ∧
     clW = tokW.claims) ∧
    mgrW.ValidateToken 90000 (.wellFormed tokW) = .error .expired ∧
    mgrW.ValidateToken 10 (.wellFormed tokWrongW) =
      .error .invalidSignature :=
  ⟨(c3_validate_checks mgrW 10).1 tokW clW rfl,
   (c3_validate_checks mgrW 90000).2.1 tokW (by decide) (by decide)
     (by decide),
   (c3_validate_checks mgrW 10).2.2 Alg.HS256 clW "other-secret"
     (by decide) (by decide)⟩

/-- C4: a token issued by `GenerateToken` under a secret, validated under
the same secret at any time inside the 24-hour validity window, validates
successfully and yields back exactly the subject and role it was issued
for. -/
theorem c4_issue_then_validate (secret subject role : String) (t0 tv : Int)
    (h1 : t0 ≤ tv) (h2 : tv < t0 + 86400) :
    (NewJWTManager secret (86400)).ValidateToken tv
      ((NewJWTManager secret (86400)).GenerateToken t0 subject role) =
      .ok { UserID := subject, Role := role, ExpiresAt := t0 + 86400,
            IssuedAt := t0, NotBefore := t0 } := by
  have h2' : tv < t0 + 86400 := by omega
  simp [NewJWTManager, JWTManager.GenerateToken, JWTManager.ValidateToken,
    Alg.isHMAC, mac, h2', not_lt.mpr h1]

/-- C4 witness: issue at time 0 and validate at time 10 under the same
secret. -/
theorem c4_issue_then_validate_witness :
    (NewJWTManager "server-secret" (86400)).ValidateToken 10
      ((NewJWTManager "server-secret" (86400)).GenerateToken 0
        "alice" "user") =
      .ok { UserID := "alice", Role := "user", ExpiresAt := 0 + 86400,
            IssuedAt := 0, NotBefore := 0 } :=
  c4_issue_then_validate "server-secret" "alice" "user" 0 10 (by decide)
    (by decide)

/-- The auth middleware answers 401 and leaves the store untouched, for
any downstream handler, whenever the path is not public and the header
lacks a valid bearer token. -/
theorem lacksValidBearer_bearer (jwtSecret : String) (now : Int)
    (ts : TokenStr) :
    lacksValidBearer jwtSecret now (.bearer ts) =
      match (NewJWTManager jwtSecret 86400).ValidateToken now ts with
      | .ok _ => false
      | .error _ => true := rfl

/-- Unfolding `newAuthMiddleware` on a non-public request carrying a
bearer header. -/
theorem newAuthMiddleware_bearer (jwtSecret : String) (now : Int)
    (next : Handler) (r : Request) (ident : Option Identity)
    (s : CommentStore)
    (hp : ¬ (r.path = "/healthz" ∨ r.path = "/api/v1/login"))
    (ts : TokenStr) (hhdr : r.header = .bearer ts) :
    newAuthMiddleware jwtSecret now next r ident s =
      match (NewJWTManager jwtSecret 86400).ValidateToken now ts with
      | .error _ => ({ status := 401, body := .text "Invalid token" }, s)
      | .ok claims => next r (some ⟨claims.UserID, claims.Role⟩) s := by
  simp only [newAuthMiddleware]
  rw [if_neg hp, hhdr]

/-- The auth middleware answers 401 and leaves the store untouched, for
any downstream handler, whenever the path is not public and the header
lacks a valid bearer token. -/
theorem authMiddleware_rejects (jwtSecret : String) (now : Int)
    (next : Handler) (r : Request) (ident : Option Identity)
    (s : CommentStore)
    (hp : ¬ (r.path = "/healthz" ∨ r.path = "/api/v1/login"))
    (hh : lacksValidBearer jwtSecret now r.header = true) :
    (newAuthMiddleware jwtSecret now next r ident s).1.status = 401 ∧
    (newAuthMiddleware jwtSecret now next r ident s).2 = s := by
  cases hhdr : r.header with
  | missing =>
    simp only [newAuthMiddleware]
    rw [if_neg hp, hhdr]
    exact ⟨rfl, rfl⟩
  | plain s0 =>
    simp only [newAuthMiddleware]
    rw [if_neg hp, hhdr]
    exact ⟨rfl, rfl⟩
  | bearer ts =>
    rw [newAuthMiddleware_bearer jwtSecret now next r ident s hp ts hhdr]
    rw [hhdr, lacksValidBearer_bearer] at hh
    cases hval : (NewJWTManager jwtSecret 86400).ValidateToken now ts with
    | ok c =>
      rw [hval] at hh
      exact Bool.noConfusion hh
    | error e => exact ⟨rfl, rfl⟩

/-- C2 counterexample: an OPTIONS request to the protected comments path
with no Authorization header is answered 200 by the CORS middleware, not
401, although its path is not public and it lacks a valid bearer token
(the downstream handler still does not run). -/
theorem c2_counterexample :
    ¬ (reqOptionsW.path = "/healthz" ∨ reqOptionsW.path = "/api/v1/login") ∧
    lacksValidBearer "server-secret" 0 reqOptionsW.header = true ∧
    (NewServer "server-secret" 0 probeApp reqOptionsW none
      NewCommentStore).1.status = 200 ∧
    ¬ (NewServer "server-secret" 0 probeApp reqOptionsW none
      NewCommentStore).1.status = 401 := by
  refine ⟨by decide, rfl, rfl, by decide⟩

/-- C2 (amended): for every inbound request whose method is not OPTIONS,
whose path is not one of the two public endpoints, and which lacks a
valid bearer token, the server's middleware stack answers 401 and no
downstream handler runs: the store state is unchanged for every possible
downstream handler (an OPTIONS request is instead answered 200 by the
CORS layer before authentication, likewise without running any
downstream handler). -/
theorem c2_unauthenticated_rejected (jwtSecret : String) (now : Int)
    (app : Handler) (r : Request) (ident : Option Identity)
    (s : CommentStore)
    (hm : ¬ r.method = "OPTIONS")
    (hp : ¬ (r.path = "/healthz" ∨ r.path = "/api/v1/login"))
    (hh : lacksValidBearer jwtSecret now r.header = true) :
    (NewServer jwtSecret now app r ident s).1.status = 401 ∧
    (NewServer jwtSecret now app r ident s).2 = s := by
  have h := authMiddleware_rejects jwtSecret now app r ident s hp hh
  simp only [NewServer, newCORSMiddleware]
  rw [if_neg hm]
  exact h

/-- C2 witness: a POST to the protected collection path with no
Authorization header is answered 401 by the full middleware stack and
leaves the (empty) store unchanged even for a downstream handler that
would insert a record. -/
theorem c2_unauthenticated_rejected_witness :
    (NewServer "server-secret" 0 probeApp reqPostNoAuthW none
      NewCommentStore).1.status = 401 ∧
    (NewServer "server-secret" 0 probeApp reqPostNoAuthW none
      NewCommentStore).2 = NewCommentStore :=
  c2_unauthenticated_rejected "server-secret" 0 probeApp reqPostNoAuthW
    none NewCommentStore (by decide) (by decide) rfl

/-- C10: the authentication bypass matches the path by exact string
equality — a request whose path is exactly `"/healthz"` or
`"/api/v1/login"` is passed through untouched, while a request with any
other path (for example a trailing-slash variant) that lacks a valid
bearer token is answered 401 with the store unchanged. -/
theorem c10_public_path_exact_match (jwtSecret : String) (now : Int)
    (next : Handler) (r : Request) (ident : Option Identity)
    (s : CommentStore) :
    ((r.path = "/healthz" ∨ r.path = "/api/v1/login") →
      newAuthMiddleware jwtSecret now next r ident s = next r ident s) ∧
    (¬ r.path = "/healthz" → ¬ r.path = "/api/v1/login" →
      lacksValidBearer jwtSecret now r.header = true →
      (newAuthMiddleware jwtSecret now next r ident s).1.status = 401 ∧
      (newAuthMiddleware jwtSecret now next r ident s).2 = s) := by
  constructor
  · intro hpub
    simp only [newAuthMiddleware]
    rw [if_pos hpub]
  · intro h1 h2 hh
    exact authMiddleware_rejects jwtSecret now next r ident s
      (by simp [h1, h2]) hh

/-- C10 witness: the exact path `"/healthz"` bypasses authentication,
while the variant `"/healthz/"` without a token is answered 401. -/
theorem c10_public_path_exact_match_witness :
    newAuthMiddleware "server-secret" 0 probeApp reqhealthW none
        NewCommentStore =
      probeApp reqhealthW none NewCommentStore ∧
    (newAuthMiddleware "server-secret" 0 probeApp reqhealthSlashW none
      NewCommentStore).1.status = 401 ∧
    (newAuthMiddleware "server-secret" 0 probeApp reqhealthSlashW none
      NewCommentStore).2 = NewCommentStore :=
  ⟨(c10_public_path_exact_match "server-secret" 0 probeApp reqhealthW
      none NewCommentStore).1 (by decide),
   (c10_public_path_exact_match "server-secret" 0 probeApp reqhealthSlashW
      none NewCommentStore).2 (by decide) (by decide) rfl⟩

/-- Unfolding `decodeValid` on a decodable body. -/
theorem decodeValid_comment (content author : String) :
    decodeValid (Body.comment content author) =
      if (createCommentRequest.Valid content author).length > 0 then
        ((content, author), createCommentRequest.Valid content author,
         some ("invalid api.createCommentRequest: "
               ++ toString (createCommentRequest.Valid content author).length
               ++ " problems"))
      else ((content, author), [], none) := rfl

/-- When `decodeValid` reports no error, the decoded value is the request
body's fields and the problems map is empty. -/
theorem decodeValid_ok (content author : String)
    (h : (decodeValid (Body.comment content author)).2.2 = none) :
    decodeValid (Body.comment content author) =
      ((content, author), [], none) := by
  rw [decodeValid_comment] at h ⊢
  split_ifs at h ⊢ with hc
  rfl

/-- C6: an authenticated PUT (with a well-formed, valid body) or DELETE on
an existing record whose owner identity differs from the authenticated
identity is answered 403 Forbidden, and the store is unchanged. -/
theorem c6_ownership_mismatch_forbidden (path : String) (hdr : AuthHeader)
    (b : Body) (s : CommentStore) (existing : Comment)
    (userID role commentID content author : String)
    (hpath : trimPrefixStr path "/api/v1/comments/" = commentID)
    (hcid : ¬ commentID = "")
    (hlook : mapLookup s commentID = some existing)
    (hown : ¬ existing.UserID = userID)
    (hbody : (decodeValid (Body.comment content author)).2.2 = none) :
    handleComment false ⟨"PUT", path, hdr, .comment content author⟩
        (some ⟨userID, role⟩) s =
      ({ status := 403, body := .text "Forbidden" }, s) ∧
    handleComment false ⟨"DELETE", path, hdr, b⟩ (some ⟨userID, role⟩) s =
      ({ status := 403, body := .text "Forbidden" }, s) := by
  constructor
  · simp only [handleComment, UserIDFromContext]
    rw [hpath, if_neg hcid]
    rw [decodeValid_ok content author hbody]
    simp [CommentStore.Get, hlook, hown]
  · simp only [handleComment, UserIDFromContext]
    rw [hpath, if_neg hcid]
    simp [CommentStore.Get, hlook, hown]

/-- C6 witness: requester `"mallory"` attempts PUT and DELETE on the
record owned by `"owner1"`. -/
theorem c6_ownership_mismatch_forbidden_witness :
    handleComment false
        ⟨"PUT", "/api/v1/comments/a", .missing, .comment "new" "bob"⟩
        (some ⟨"mallory", "user"⟩) storeW1 =
      ({ status := 403, body := .text "Forbidden" }, storeW1) ∧
    handleComment false
        ⟨"DELETE", "/api/v1/comments/a", .missing, .invalidJSON⟩
        (some ⟨"mallory", "user"⟩) storeW1 =
      ({ status := 403, body := .text "Forbidden" }, storeW1) :=
  c6_ownership_mismatch_forbidden "/api/v1/comments/a" .missing
    .invalidJSON storeW1 cW1 "mallory" "user" "a" "new" "bob" rfl
    (by decide) rfl (by decide) rfl

/-- C7 (evaluation at the failing input): an authenticated POST with body
`{"content":"","author":"x"}` is answered 400 and creates no record, but
the response body is the plain error text of `decodeValid` — the branch
that would encode the field→message problems map is unreachable, because
`decodeValid` returns a non-nil error whenever the problems map is
non-empty and the handler checks the error first. -/
theorem c7_validation_error_body_is_text :
    handleComments false
        ⟨"POST", "/api/v1/comments", .missing, .comment "" "x"⟩
        (some ⟨"test", "user"⟩) NewCommentStore "id1" 0 =
      ({ status := 400,
         body := .text "invalid api.createCommentRequest: 1 problems" },
       NewCommentStore) := rfl
